import Mathlib

/-!
Shallow embedding of the `leucite` crate (a wrapper around the `landlock`
crate plus a small `prlimit` resource-limit helper).

Embedded from:
* `src/prlimit.rs` — `MemorySize` with its unit constructors/accessors
  (the `impl_memsz!` macro expansions), `into_rlimit`, `Limit` and
  `Limit::limit` (the `prlimit(2)` syscall is modelled by an `OS` oracle).
* `src/lib.rs` — `Rules`, `Error`, `Rules::restrict` (the landlock kernel
  interface is modelled by a `Kernel` oracle and the sequence of kernel
  calls is recorded as a trace of `Op`s), and the `CommandExt`
  implementations for `std::process::Command` and
  `tokio::process::Command` produced by the `impl_cmd!` macro
  (`pre_exec` hooks are modelled as a list of `Hook`s executed in order
  in the child before exec).

Machine integers: Rust `u64` arithmetic is modelled on `Nat` with an
explicit `% 2^64` where the source multiplies (release-profile wrapping
semantics).
-/

namespace Leucite

/-- `2^64`, the modulus of Rust `u64` arithmetic. -/
def U64 : Nat := 2 ^ 64

/-! ## `src/prlimit.rs` : `MemorySize` -/

/-- `pub struct MemorySize(u64);` — the wrapped byte count. -/
structure MemorySize where
  val : Nat
  deriving DecidableEq, Repr

/-- `impl_memsz!(from_bytes => bytes * 1)`, constructor half. -/
def MemorySize.from_bytes (bytes : Nat) : MemorySize :=
  ⟨bytes * 1 % U64⟩

/-- `impl_memsz!(from_bytes => bytes * 1)`, accessor half. -/
def MemorySize.bytes (s : MemorySize) : Nat :=
  s.val / 1

/-- `impl_memsz!(from_kb => kilobytes * 1000)`, constructor half. -/
def MemorySize.from_kb (kilobytes : Nat) : MemorySize :=
  ⟨kilobytes * 1000 % U64⟩

/-- `impl_memsz!(from_kb => kilobytes * 1000)`, accessor half. -/
def MemorySize.kilobytes (s : MemorySize) : Nat :=
  s.val / 1000

/-- `impl_memsz!(from_mb => megabytes * 1000 * 1000)`, constructor half. -/
def MemorySize.from_mb (megabytes : Nat) : MemorySize :=
  ⟨megabytes * (1000 * 1000) % U64⟩

/-- `impl_memsz!(from_mb => megabytes * 1000 * 1000)`, accessor half. -/
def MemorySize.megabytes (s : MemorySize) : Nat :=
  s.val / (1000 * 1000)

/-- `impl_memsz!(from_gb => gigabytes * 1000 * 1000 * 1000)`, constructor half. -/
def MemorySize.from_gb (gigabytes : Nat) : MemorySize :=
  ⟨gigabytes * (1000 * 1000 * 1000) % U64⟩

/-- `impl_memsz!(from_gb => gigabytes * 1000 * 1000 * 1000)`, accessor half. -/
def MemorySize.gigabytes (s : MemorySize) : Nat :=
  s.val / (1000 * 1000 * 1000)

/-- `impl_memsz!(from_kib => kibibytes * 1024)`, constructor half. -/
def MemorySize.from_kib (kibibytes : Nat) : MemorySize :=
  ⟨kibibytes * 1024 % U64⟩

/-- `impl_memsz!(from_kib => kibibytes * 1024)`, accessor half. -/
def MemorySize.kibibytes (s : MemorySize) : Nat :=
  s.val / 1024

/-- `impl_memsz!(from_mib => mebibytes * 1024 * 1024)`, constructor half. -/
def MemorySize.from_mib (mebibytes : Nat) : MemorySize :=
  ⟨mebibytes * (1024 * 1024) % U64⟩

/-- `impl_memsz!(from_mib => mebibytes * 1024 * 1024)`, accessor half. -/
def MemorySize.mebibytes (s : MemorySize) : Nat :=
  s.val / (1024 * 1024)

/-- `impl_memsz!(from_gib => gibibytes * 1024 * 1024 * 1024)`, constructor half. -/
def MemorySize.from_gib (gibibytes : Nat) : MemorySize :=
  ⟨gibibytes * (1024 * 1024 * 1024) % U64⟩

/-- `impl_memsz!(from_gib => gibibytes * 1024 * 1024 * 1024)`, accessor half. -/
def MemorySize.gibibytes (s : MemorySize) : Nat :=
  s.val / (1024 * 1024 * 1024)

/-! ## `src/prlimit.rs` : `rlimit`, `into_rlimit`, `Limit` -/

/-- `libc::rlimit` — soft (`rlim_cur`) and hard (`rlim_max`) bounds. -/
structure Rlimit where
  rlim_cur : Nat
  rlim_max : Nat
  deriving DecidableEq, Repr

/-- `fn into_rlimit(n: u64) -> libc::rlimit` : both bounds set to `n`. -/
def into_rlimit (n : Nat) : Rlimit :=
  { rlim_cur := n, rlim_max := n }

/-- `pub(crate) enum Limit` from `src/prlimit.rs`. -/
inductive Limit where
  | Cpu
  | FileSize
  | Data
  | Stack
  | Core
  | ResidentSetSize
  | NumberProcesses
  | NumberFiles
  | MemoryLock
  | AddressSpace
  | Locks
  | SignalPending
  | MessageQueue
  | Nice
  | RTPrio
  | RTTime
  deriving DecidableEq, Repr

/-- The `#[repr(u32)]` discriminants of `Limit`: the `libc::RLIMIT_*`
constants on Linux (`From<Limit> for __rlimit_resource_t`). -/
def Limit.resource : Limit → Nat
  | .Cpu => 0
  | .FileSize => 1
  | .Data => 2
  | .Stack => 3
  | .Core => 4
  | .ResidentSetSize => 5
  | .NumberProcesses => 6
  | .NumberFiles => 7
  | .MemoryLock => 8
  | .AddressSpace => 9
  | .Locks => 10
  | .SignalPending => 11
  | .MessageQueue => 12
  | .Nice => 13
  | .RTPrio => 14
  | .RTTime => 15

/-- Oracle for the OS interface used by `Limit::limit`: the return code
of the `libc::prlimit` syscall for a given resource and new limit, and
the error that `io::Error::last_os_error()` would read from `errno`.
The error is abstracted as its errno value. -/
structure OS where
  prlimitRet : Nat → Rlimit → Int
  lastOsError : Nat

/-- The record of one `libc::prlimit` invocation: the pid argument
(`0` = current process), the resource, and the new limit passed. -/
structure PrlimitCall where
  pid : Nat
  resource : Nat
  new_limit : Rlimit
  deriving DecidableEq, Repr

/-- The error type of the crate, `enum Error` in `src/lib.rs`.
(The Rust variants carry the underlying `landlock::RulesetError` as
`source`; that payload is an opaque external value and is not modelled.)
`AcessNet` keeps the source's spelling. -/
inductive Error where
  | AccessFs
  | AcessNet
  | CreateRuleset
  | SetBindPorts
  | SetConnectPorts
  | LandlockNotSupported
  deriving DecidableEq, Repr

/-- `std::io::Error` as observed in this crate: either produced from
`errno` by `read_errno` (`io::Error::last_os_error()`), or wrapping a
crate `Error` via `io::Error::new(io::ErrorKind::Other, e)`. -/
inductive IoError where
  | osError (errno : Nat)
  | other (e : Error)
  deriving DecidableEq, Repr

/-- `Limit::limit(self, size)` from `src/prlimit.rs`: builds the rlimit
with `into_rlimit`, calls `libc::prlimit(0, resource, &limit, null)`,
returns `Ok(())` when the return code is `0` and `Err(read_errno())`
otherwise. The first component records the syscall made. -/
def Limit.limit (os : OS) (l : Limit) (size : Nat) : PrlimitCall × Except IoError Unit :=
  let limit := into_rlimit size
  let call : PrlimitCall := { pid := 0, resource := l.resource, new_limit := limit }
  let ret := os.prlimitRet l.resource limit
  if ret = 0 then
    (call, Except.ok ())
  else
    (call, Except.error (IoError.osError os.lastOsError))

/-! ## `src/lib.rs` : `Rules` and the landlock kernel interface -/

/-- `landlock::AccessNet` access classes used by the crate:
`AccessNet::BindTcp` and `AccessNet::ConnectTcp`. -/
inductive AccessNet where
  | BindTcp
  | ConnectTcp
  deriving DecidableEq, Repr

/-- The three filesystem access sets the crate passes to
`path_beneath_rules`: `AccessFs::from_read(abi)`,
`AccessFs::from_write(abi)` and `AccessFs::from_all(abi)`. -/
inductive FsAccessSet where
  | fromRead
  | fromWrite
  | fromAll
  deriving DecidableEq, Repr

/-- `landlock::RulesetStatus` after `restrict_self`:
`FullyEnforced`, `PartiallyEnforced` (spelled `PartlyEnforced` here) or
`NotEnforced`. -/
inductive RulesetStatus where
  | FullyEnforced
  | PartlyEnforced
  | NotEnforced
  deriving DecidableEq, Repr

/-- One call made by `Rules::restrict` against the landlock interface,
recorded in order. `chooseAbi` records `let abi = ABI::V4;` (revision 4);
`handleAccessFs`/`handleAccessNet` record the
`handle_access(AccessFs::from_all(abi))` and
`handle_access(AccessNet::from_all(abi))` declarations; `create` the
ruleset creation; `addNetPortRule` one `NetPort::new(port, access)` rule;
`addPathRule` one rule produced by `path_beneath_rules`; `restrictSelf`
the final enforcement call. -/
inductive Op where
  | chooseAbi (v : Nat)
  | handleAccessFs (abi : Nat)
  | handleAccessNet (abi : Nat)
  | create
  | addNetPortRule (port : Nat) (access : AccessNet)
  | addPathRule (path : String) (access : FsAccessSet)
  | restrictSelf
  deriving DecidableEq, Repr

/-- Oracle for the landlock kernel interface: whether each declaration,
creation and rule-addition call succeeds, and the result of
`restrict_self` (`none` models the call itself erroring, `some st` a
successful call reporting status `st`). The error payloads
(`landlock::RulesetError`) are opaque external values, so success is a
`Bool`. -/
structure Kernel where
  handleFsOk : Bool
  handleNetOk : Bool
  createOk : Bool
  netRuleOk : Nat → AccessNet → Bool
  pathRuleOk : String → FsAccessSet → Bool
  restrictSelfResult : Option RulesetStatus

/-- `pub struct Rules` from `src/lib.rs`: three path lists and two port
lists. Paths are modelled as strings, ports (`u16`) as naturals. -/
structure Rules where
  read_only : List String
  read_write : List String
  write_only : List String
  bind_ports : List Nat
  connect_ports : List Nat
  deriving DecidableEq, Repr

/-- `Rules::new()` — no permissions (`Default::default()`). -/
def Rules.new : Rules :=
  { read_only := [], read_write := [], write_only := [], bind_ports := [], connect_ports := [] }

/-- `Rules::add_read_only` — push onto `read_only`, return `self`. -/
def Rules.add_read_only (r : Rules) (p : String) : Rules :=
  { r with read_only := r.read_only ++ [p] }

/-- `Rules::add_read_write` — push onto `read_write`, return `self`. -/
def Rules.add_read_write (r : Rules) (p : String) : Rules :=
  { r with read_write := r.read_write ++ [p] }

/-- `Rules::add_write_only` — push onto `write_only`, return `self`. -/
def Rules.add_write_only (r : Rules) (p : String) : Rules :=
  { r with write_only := r.write_only ++ [p] }

/-- `Rules::add_connect_port` — push onto `connect_ports`, return `self`. -/
def Rules.add_connect_port (r : Rules) (p : Nat) : Rules :=
  { r with connect_ports := r.connect_ports ++ [p] }

/-- `Rules::add_bind_port` — push onto `bind_ports`, return `self`. -/
def Rules.add_bind_port (r : Rules) (p : Nat) : Rules :=
  { r with bind_ports := r.bind_ports ++ [p] }

/-- `RulesetCreated::add_rules` over a list of rules: attempt each rule
in order; stop at the first failing rule. Returns whether all
succeeded, together with the ops attempted (the failing attempt
included). `add_rule` on a single rule is the singleton-list case. -/
def addRulesLoop {α : Type} (ok : α → Bool) (mk : α → Op) : List α → Bool × List Op
  | [] => (true, [])
  | r :: rest =>
    if ok r then
      let rec_ := addRulesLoop ok mk rest
      (rec_.1, mk r :: rec_.2)
    else
      (false, [mk r])

/-- `Rules::restrict(&self)` from `src/lib.rs`, against kernel oracle
`k`. Returns the Rust result (`Result<(), Error>` as `Except`) paired
with the ordered trace of landlock calls made. Mirrors the source:
`ABI::V4`; `handle_access(AccessFs::from_all(abi))` (error →
`Error::AccessFs`); `handle_access(AccessNet::from_all(abi))` (error →
`Error::AcessNet`); `create()` (error → `Error::CreateRuleset`); bind
rules — sentinel `NetPort::new(0, BindTcp)` when `bind_ports` is empty,
else one rule per listed port (error → `Error::SetBindPorts`); connect
rules analogously (error → `Error::SetConnectPorts`); path rules for
`read_only` with `from_read`, `write_only` with `from_write`,
`read_write` with `from_all`, in that order (error → `Error::AccessFs`);
`restrict_self()` (error → `Error::AccessFs`); finally
`Err(LandlockNotSupported)` when the reported status is `NotEnforced`,
else `Ok(())`. -/
def Rules.restrict (r : Rules) (k : Kernel) : Except Error Unit × List Op :=
  let abi := 4
  let t1 := [Op.chooseAbi abi, Op.handleAccessFs abi]
  if !k.handleFsOk then (Except.error Error.AccessFs, t1)
  else
    let t2 := t1 ++ [Op.handleAccessNet abi]
    if !k.handleNetOk then (Except.error Error.AcessNet, t2)
    else
      let t3 := t2 ++ [Op.create]
      if !k.createOk then (Except.error Error.CreateRuleset, t3)
      else
        let bindList :=
          if r.bind_ports.isEmpty then [(0, AccessNet.BindTcp)]
          else r.bind_ports.map (fun p => (p, AccessNet.BindTcp))
        let resBind := addRulesLoop (fun pa => k.netRuleOk pa.1 pa.2)
          (fun pa => Op.addNetPortRule pa.1 pa.2) bindList
        let t4 := t3 ++ resBind.2
        if !resBind.1 then (Except.error Error.SetBindPorts, t4)
        else
          let connectList :=
            if r.connect_ports.isEmpty then [(0, AccessNet.ConnectTcp)]
            else r.connect_ports.map (fun p => (p, AccessNet.ConnectTcp))
          let resConn := addRulesLoop (fun pa => k.netRuleOk pa.1 pa.2)
            (fun pa => Op.addNetPortRule pa.1 pa.2) connectList
          let t5 := t4 ++ resConn.2
          if !resConn.1 then (Except.error Error.SetConnectPorts, t5)
          else
            let resRO := addRulesLoop (fun pa => k.pathRuleOk pa.1 pa.2)
              (fun pa => Op.addPathRule pa.1 pa.2)
              (r.read_only.map (fun p => (p, FsAccessSet.fromRead)))
            let t6 := t5 ++ resRO.2
            if !resRO.1 then (Except.error Error.AccessFs, t6)
            else
              let resWO := addRulesLoop (fun pa => k.pathRuleOk pa.1 pa.2)
                (fun pa => Op.addPathRule pa.1 pa.2)
                (r.write_only.map (fun p => (p, FsAccessSet.fromWrite)))
              let t7 := t6 ++ resWO.2
              if !resWO.1 then (Except.error Error.AccessFs, t7)
              else
                let resRW := addRulesLoop (fun pa => k.pathRuleOk pa.1 pa.2)
                  (fun pa => Op.addPathRule pa.1 pa.2)
                  (r.read_write.map (fun p => (p, FsAccessSet.fromAll)))
                let t8 := t7 ++ resRW.2
                if !resRW.1 then (Except.error Error.AccessFs, t8)
                else
                  let t9 := t8 ++ [Op.restrictSelf]
                  match k.restrictSelfResult with
                  | none => (Except.error Error.AccessFs, t9)
                  | some st =>
                    if st = RulesetStatus.NotEnforced then
                      (Except.error Error.LandlockNotSupported, t9)
                    else
                      (Except.ok (), t9)

/-- A kernel on which every landlock call succeeds and the ruleset is
reported fully enforced; used to observe the rules the compiler emits. -/
def okKernel : Kernel where
  handleFsOk := true
  handleNetOk := true
  createOk := true
  netRuleOk := fun _ _ => true
  pathRuleOk := fun _ _ => true
  restrictSelfResult := some RulesetStatus.FullyEnforced

/-- The path-scoped rules `Rules::restrict` emits for policy `r`
(extracted from the call trace on an all-successful kernel), in
emission order. -/
def pathRulesEmitted (r : Rules) : List (String × FsAccessSet) :=
  (r.restrict okKernel).2.filterMap fun op =>
    match op with
    | Op.addPathRule p a => some (p, a)
    | _ => none

/-- The port rules `Rules::restrict` emits for access class `a`
(extracted from the call trace on an all-successful kernel), in
emission order. -/
def netRulesEmitted (r : Rules) (a : AccessNet) : List Nat :=
  (r.restrict okKernel).2.filterMap fun op =>
    match op with
    | Op.addNetPortRule p b => if b = a then some p else none
    | _ => none

/-- Whether a landlock filesystem access set grants the read class. -/
def FsAccessSet.grantsRead : FsAccessSet → Bool
  | .fromRead => true
  | .fromWrite => false
  | .fromAll => true

/-- Whether a landlock filesystem access set grants the write class. -/
def FsAccessSet.grantsWrite : FsAccessSet → Bool
  | .fromRead => false
  | .fromWrite => true
  | .fromAll => true

/-- Effective landlock semantics of the emitted rules: path `p` is
granted the read class iff some emitted rule for `p` carries an access
set granting read (landlock unions the access sets of all rules for a
path). -/
def readGranted (r : Rules) (p : String) : Bool :=
  (pathRulesEmitted r).any fun q => q.1 == p && q.2.grantsRead

/-- Effective landlock semantics of the emitted rules: path `p` is
granted the write class iff some emitted rule for `p` carries an access
set granting write. -/
def writeGranted (r : Rules) (p : String) : Bool :=
  (pathRulesEmitted r).any fun q => q.1 == p && q.2.grantsWrite

/-! ## `src/lib.rs` : `CommandExt` for `Command` and `TokioCommand`

`pre_exec` registers a closure run in the forked child, in registration
order, before `exec`; a closure returning an error aborts the spawn.
The two closures the crate registers are modelled as `Hook` values, a
command as its ordered list of registered hooks. -/

/-- A pre-exec closure registered by the crate: either
`rules.restrict().map_err(..)` over a shared `Arc<Rules>` handle, or
`Limit::<kind>.limit(size.bytes())`. -/
inductive Hook where
  | restrictHook (rules : Rules)
  | limitHook (l : Limit) (size : MemorySize)
  deriving DecidableEq, Repr

/-- `std::process::Command`, reduced to its ordered pre-exec hook list
(the only state the crate's extension trait touches). -/
structure Command where
  hooks : List Hook
  deriving DecidableEq, Repr

/-- `tokio::process::Command`, likewise reduced to its pre-exec hooks. -/
structure TokioCommand where
  hooks : List Hook
  deriving DecidableEq, Repr

/-- `CommandExt::restrict` for `Command` (from `impl_cmd!`):
`self.pre_exec(move || rules.restrict()...)` — append the hook. -/
def Command.restrict (c : Command) (rules : Rules) : Command :=
  { hooks := c.hooks ++ [Hook.restrictHook rules] }

/-- `CommandExt::max_memory` for `Command` (from `impl_cmd!`):
`self.pre_exec(move || Limit::Data.limit(max_memory.bytes()))`. -/
def Command.max_memory (c : Command) (max_memory : MemorySize) : Command :=
  { hooks := c.hooks ++ [Hook.limitHook Limit.Data max_memory] }

/-- `CommandExt::max_file_size` for `Command` (from `impl_cmd!`):
`self.pre_exec(move || Limit::FileSize.limit(max_file_size.bytes()))`. -/
def Command.max_file_size (c : Command) (max_file_size : MemorySize) : Command :=
  { hooks := c.hooks ++ [Hook.limitHook Limit.FileSize max_file_size] }

/-- `CommandExt::restrict_if` default method for `Command`. -/
def Command.restrict_if (c : Command) (rules : Option Rules) : Command :=
  match rules with
  | some rules => c.restrict rules
  | none => c

/-- `CommandExt::max_memory_if` default method for `Command`. -/
def Command.max_memory_if (c : Command) (max_memory : Option MemorySize) : Command :=
  match max_memory with
  | some m => c.max_memory m
  | none => c

/-- `CommandExt::max_file_size_if` default method for `Command`. -/
def Command.max_file_size_if (c : Command) (max_file_size : Option MemorySize) : Command :=
  match max_file_size with
  | some m => c.max_file_size m
  | none => c

/-- `CommandExt::restrict` for `TokioCommand` — the second expansion of
the same `impl_cmd!` body. -/
def TokioCommand.restrict (c : TokioCommand) (rules : Rules) : TokioCommand :=
  { hooks := c.hooks ++ [Hook.restrictHook rules] }

/-- `CommandExt::max_memory` for `TokioCommand` — second expansion of
the same `impl_cmd!` body. -/
def TokioCommand.max_memory (c : TokioCommand) (max_memory : MemorySize) : TokioCommand :=
  { hooks := c.hooks ++ [Hook.limitHook Limit.Data max_memory] }

/-- `CommandExt::max_file_size` for `TokioCommand` — second expansion of
the same `impl_cmd!` body. -/
def TokioCommand.max_file_size (c : TokioCommand) (max_file_size : MemorySize) : TokioCommand :=
  { hooks := c.hooks ++ [Hook.limitHook Limit.FileSize max_file_size] }

/-- `CommandExt::restrict_if` default method for `TokioCommand`. -/
def TokioCommand.restrict_if (c : TokioCommand) (rules : Option Rules) : TokioCommand :=
  match rules with
  | some rules => c.restrict rules
  | none => c

/-- `CommandExt::max_memory_if` default method for `TokioCommand`. -/
def TokioCommand.max_memory_if (c : TokioCommand) (max_memory : Option MemorySize) : TokioCommand :=
  match max_memory with
  | some m => c.max_memory m
  | none => c

/-- `CommandExt::max_file_size_if` default method for `TokioCommand`. -/
def TokioCommand.max_file_size_if (c : TokioCommand) (max_file_size : Option MemorySize) : TokioCommand :=
  match max_file_size with
  | some m => c.max_file_size m
  | none => c

/-- Run one registered hook in the child, against the kernel and OS
oracles, producing the `io::Result<()>` the spawn machinery sees:
the restrict hook maps a crate `Error` through
`io::Error::new(ErrorKind::Other, e)`; the limit hook returns
`Limit::limit`'s result directly. -/
def runHook (k : Kernel) (os : OS) : Hook → Except IoError Unit
  | Hook.restrictHook rules =>
    match (rules.restrict k).1 with
    | Except.ok _ => Except.ok ()
    | Except.error e => Except.error (IoError.other e)
  | Hook.limitHook l size => (Limit.limit os l size.bytes).2

/-- Observable steps of the child between fork and exec. -/
inductive Event where
  | applyLimit (l : Limit) (bytes : Nat)
  | enforce (rules : Rules)
  | exec
  deriving DecidableEq, Repr

/-- The event a hook performs when it runs. -/
def Hook.event : Hook → Event
  | Hook.restrictHook rules => Event.enforce rules
  | Hook.limitHook l size => Event.applyLimit l size.bytes

/-- Child-side execution: run the registered hooks in registration
order; a failing hook aborts (no exec, no later hooks); when all hooks
succeed the child execs. Returns the ordered events. -/
def childEvents (k : Kernel) (os : OS) : List Hook → List Event
  | [] => [Event.exec]
  | h :: rest =>
    match runHook k os h with
    | Except.ok _ => h.event :: childEvents k os rest
    | Except.error _ => [h.event]

/-- Child-side execution result: `ok` when every hook succeeded (the
child goes on to exec), otherwise the first hook error, which the spawn
primitive surfaces as the spawn's failure. -/
def childResult (k : Kernel) (os : OS) : List Hook → Except IoError Unit
  | [] => Except.ok ()
  | h :: rest =>
    match runHook k os h with
    | Except.ok _ => childResult k os rest
    | Except.error e => Except.error e

/-- No resource-limit application occurs after a policy enforcement in
the event list. -/
def limitsPrecedeEnforce : List Event → Bool
  | [] => true
  | Event.enforce _ :: rest =>
    !(rest.any fun e => match e with | Event.applyLimit _ _ => true | _ => false)
      && limitsPrecedeEnforce rest
  | _ :: rest => limitsPrecedeEnforce rest

/-- An OS oracle on which `prlimit` always succeeds. -/
def okOS : OS where
  prlimitRet := fun _ _ => 0
  lastOsError := 0

/-- One restriction call, as issued by a caller against either command
type; used to compare the std and tokio expansions of `impl_cmd!`. -/
inductive CmdCall where
  | restrict (rules : Rules)
  | restrict_if (rules : Option Rules)
  | max_memory (m : MemorySize)
  | max_memory_if (m : Option MemorySize)
  | max_file_size (m : MemorySize)
  | max_file_size_if (m : Option MemorySize)
  deriving DecidableEq, Repr

/-- Apply one call to a `Command`. -/
def applyCallStd (c : Command) : CmdCall → Command
  | CmdCall.restrict rules => c.restrict rules
  | CmdCall.restrict_if rules => c.restrict_if rules
  | CmdCall.max_memory m => c.max_memory m
  | CmdCall.max_memory_if m => c.max_memory_if m
  | CmdCall.max_file_size m => c.max_file_size m
  | CmdCall.max_file_size_if m => c.max_file_size_if m

/-- Apply a sequence of calls to a `Command`. -/
def applyCallsStd (c : Command) : List CmdCall → Command
  | [] => c
  | call :: rest => applyCallsStd (applyCallStd c call) rest

/-- Apply one call to a `TokioCommand`. -/
def applyCallTokio (c : TokioCommand) : CmdCall → TokioCommand
  | CmdCall.restrict rules => c.restrict rules
  | CmdCall.restrict_if rules => c.restrict_if rules
  | CmdCall.max_memory m => c.max_memory m
  | CmdCall.max_memory_if m => c.max_memory_if m
  | CmdCall.max_file_size m => c.max_file_size m
  | CmdCall.max_file_size_if m => c.max_file_size_if m

/-- Apply a sequence of calls to a `TokioCommand`. -/
def applyCallsTokio (c : TokioCommand) : List CmdCall → TokioCommand
  | [] => c
  | call :: rest => applyCallsTokio (applyCallTokio c call) rest

/-! ## Helper lemmas on `Rules.restrict` -/

/-- The trace of kernel calls `Rules::restrict` makes for policy `r`
when every kernel call succeeds. -/
def fullTrace (r : Rules) : List Op :=
  [Op.chooseAbi 4, Op.handleAccessFs 4]
    ++ [Op.handleAccessNet 4]
    ++ [Op.create]
    ++ ((if r.bind_ports.isEmpty then [(0, AccessNet.BindTcp)]
        else r.bind_ports.map fun p => (p, AccessNet.BindTcp)).map
          fun pa => Op.addNetPortRule pa.1 pa.2)
    ++ ((if r.connect_ports.isEmpty then [(0, AccessNet.ConnectTcp)]
        else r.connect_ports.map fun p => (p, AccessNet.ConnectTcp)).map
          fun pa => Op.addNetPortRule pa.1 pa.2)
    ++ ((r.read_only.map fun p => (p, FsAccessSet.fromRead)).map
          fun pa => Op.addPathRule pa.1 pa.2)
    ++ ((r.write_only.map fun p => (p, FsAccessSet.fromWrite)).map
          fun pa => Op.addPathRule pa.1 pa.2)
    ++ ((r.read_write.map fun p => (p, FsAccessSet.fromAll)).map
          fun pa => Op.addPathRule pa.1 pa.2)
    ++ [Op.restrictSelf]

theorem addRulesLoop_all_true {α : Type} (ok : α → Bool) (mk : α → Op) (l : List α)
    (h : ∀ x ∈ l, ok x = true) : addRulesLoop ok mk l = (true, l.map mk) := by
  induction l with
  | nil => rfl
  | cons x xs ih =>
    have hx := h x (List.mem_cons_self x xs)
    have hxs : ∀ y ∈ xs, ok y = true := fun y hy => h y (List.mem_cons_of_mem x hy)
    simp [addRulesLoop, hx, ih hxs]

theorem restrict_allOk (k : Kernel) (r : Rules) (st : RulesetStatus)
    (hFs : k.handleFsOk = true) (hNet : k.handleNetOk = true) (hCr : k.createOk = true)
    (hNR : ∀ p a, k.netRuleOk p a = true) (hPR : ∀ p a, k.pathRuleOk p a = true)
    (hSelf : k.restrictSelfResult = some st) :
    r.restrict k =
      ((if st = RulesetStatus.NotEnforced then Except.error Error.LandlockNotSupported
        else Except.ok ()), fullTrace r) := by
  have hN : ∀ (mk : Nat × AccessNet → Op) (l : List (Nat × AccessNet)),
      addRulesLoop (fun pa => k.netRuleOk pa.1 pa.2) mk l = (true, l.map mk) :=
    fun mk l => addRulesLoop_all_true _ _ _ (fun x _ => hNR x.1 x.2)
  have hP : ∀ (mk : String × FsAccessSet → Op) (l : List (String × FsAccessSet)),
      addRulesLoop (fun pa => k.pathRuleOk pa.1 pa.2) mk l = (true, l.map mk) :=
    fun mk l => addRulesLoop_all_true _ _ _ (fun x _ => hPR x.1 x.2)
  simp only [Rules.restrict, hFs, hNet, hCr, hSelf, hN, hP, Bool.not_true,
    Bool.false_eq_true, if_false, fullTrace]
  simp only [List.append_assoc]
  split <;> simp

theorem restrict_okKernel (r : Rules) : r.restrict okKernel = (Except.ok (), fullTrace r) := by
  have h := restrict_allOk okKernel r RulesetStatus.FullyEnforced rfl rfl rfl
    (fun _ _ => rfl) (fun _ _ => rfl) rfl
  simpa using h

theorem filterMap_const_none {α β : Type} (l : List α) :
    l.filterMap (fun _ => (none : Option β)) = [] := by
  induction l <;> simp [*]

theorem filterMap_some_comp {α β : Type} (f : α → β) (l : List α) :
    l.filterMap (fun x => some (f x)) = l.map f := by
  induction l <;> simp [*]

theorem pathRulesEmitted_eq (r : Rules) :
    pathRulesEmitted r =
      (r.read_only.map fun p => (p, FsAccessSet.fromRead))
        ++ (r.write_only.map fun p => (p, FsAccessSet.fromWrite))
        ++ (r.read_write.map fun p => (p, FsAccessSet.fromAll)) := by
  unfold pathRulesEmitted
  rw [restrict_okKernel]
  simp only [fullTrace, List.filterMap_append, List.filterMap_map, Function.comp_def]
  cases hb : r.bind_ports.isEmpty <;> cases hc : r.connect_ports.isEmpty <;>
    simp [Function.comp_def, filterMap_const_none, filterMap_some_comp]

theorem netRulesEmitted_bind (r : Rules) :
    netRulesEmitted r AccessNet.BindTcp =
      (if r.bind_ports.isEmpty then [0] else r.bind_ports) := by
  unfold netRulesEmitted
  rw [restrict_okKernel]
  simp only [fullTrace, List.filterMap_append, List.filterMap_map, Function.comp_def]
  cases hb : r.bind_ports.isEmpty <;> cases hc : r.connect_ports.isEmpty <;>
    simp [Function.comp_def, filterMap_const_none, filterMap_some_comp, List.filterMap_some]

theorem netRulesEmitted_connect (r : Rules) :
    netRulesEmitted r AccessNet.ConnectTcp =
      (if r.connect_ports.isEmpty then [0] else r.connect_ports) := by
  unfold netRulesEmitted
  rw [restrict_okKernel]
  simp only [fullTrace, List.filterMap_append, List.filterMap_map, Function.comp_def]
  cases hb : r.bind_ports.isEmpty <;> cases hc : r.connect_ports.isEmpty <;>
    simp [Function.comp_def, filterMap_const_none, filterMap_some_comp, List.filterMap_some]

/-! ## `MemorySize` arithmetic lemmas -/

theorem div_mul_eq_self_iff (a k : Nat) : a / k * k = a ↔ k ∣ a := by
  constructor
  · intro h
    exact ⟨a / k, by rw [Nat.mul_comm]; exact h.symm⟩
  · intro h
    exact Nat.div_mul_cancel h

theorem unit_inverse (scale : Nat) (s : MemorySize) (h : s.val < U64) :
    (⟨s.val / scale * scale % U64⟩ : MemorySize) = s ↔ scale ∣ s.val := by
  have hle : s.val / scale * scale ≤ s.val := Nat.div_mul_le_self _ _
  rw [Nat.mod_eq_of_lt (lt_of_le_of_lt hle h)]
  obtain ⟨v⟩ := s
  simpa [MemorySize.mk.injEq] using div_mul_eq_self_iff v scale

/-! ## Claim theorems -/

/-- Claim C8: each `MemorySize` unit constructor multiplies by its scale
and the same-named accessor divides (truncating) by that scale, so for a
stored byte count in `u64` range the accessor-then-constructor
round-trip reproduces the value exactly when the byte count is a
multiple of the scale; concretely `from_mb(5).bytes() == 5_000_000`,
`from_mib(5).bytes() == 5_242_880`, and
`from_bytes(1_500_000).megabytes() == 1`. -/
theorem memorySize_units_inverse_iff :
    (MemorySize.from_mb 5).bytes = 5000000
    ∧ (MemorySize.from_mib 5).bytes = 5242880
    ∧ (MemorySize.from_bytes 1500000).megabytes = 1
    ∧ (∀ s : MemorySize, s.val < U64 →
        (MemorySize.from_bytes s.bytes = s ↔ 1 ∣ s.val)
        ∧ (MemorySize.from_kb s.kilobytes = s ↔ 1000 ∣ s.val)
        ∧ (MemorySize.from_mb s.megabytes = s ↔ (1000 * 1000) ∣ s.val)
        ∧ (MemorySize.from_gb s.gigabytes = s ↔ (1000 * 1000 * 1000) ∣ s.val)
        ∧ (MemorySize.from_kib s.kibibytes = s ↔ 1024 ∣ s.val)
        ∧ (MemorySize.from_mib s.mebibytes = s ↔ (1024 * 1024) ∣ s.val)
        ∧ (MemorySize.from_gib s.gibibytes = s ↔ (1024 * 1024 * 1024) ∣ s.val)) := by
  refine ⟨?_, ?_, ?_, ?_⟩
  · norm_num [MemorySize.from_mb, MemorySize.bytes, U64]
  · norm_num [MemorySize.from_mib, MemorySize.bytes, U64]
  · norm_num [MemorySize.from_bytes, MemorySize.megabytes, U64]
  · intro s h
    refine ⟨?_, ?_, ?_, ?_, ?_, ?_, ?_⟩
    · simpa [MemorySize.from_bytes, MemorySize.bytes] using unit_inverse 1 s h
    · exact unit_inverse 1000 s h
    · exact unit_inverse (1000 * 1000) s h
    · exact unit_inverse (1000 * 1000 * 1000) s h
    · exact unit_inverse 1024 s h
    · exact unit_inverse (1024 * 1024) s h
    · exact unit_inverse (1024 * 1024 * 1024) s h

/-- Witness for C8 at a concrete input: the byte count `5_000_000` is a
multiple of the megabyte scale, and the `from_mb`/`megabytes` round-trip
reproduces it. -/
theorem memorySize_units_inverse_iff_witness :
    MemorySize.from_mb (MemorySize.megabytes ⟨5000000⟩) = ⟨5000000⟩ :=
  ((memorySize_units_inverse_iff.2.2.2 ⟨5000000⟩ (by norm_num [U64])).2.2.1).mpr
    (by norm_num)

/-- Claim C10: every `MemorySize` unit constructor stores the input
times the unit scale reduced modulo `2^64`, with no error or guard: the
stored byte count is exact whenever the product is below `2^64`, and
`from_gib` at the input `2^34` wraps, so `bytes()` returns a value
strictly smaller than the mathematical product while the constructor
still succeeds. -/
theorem memorySize_constructors_wrap :
    (∀ n, (MemorySize.from_bytes n).val = n * 1 % U64)
    ∧ (∀ n, (MemorySize.from_kb n).val = n * 1000 % U64)
    ∧ (∀ n, (MemorySize.from_mb n).val = n * (1000 * 1000) % U64)
    ∧ (∀ n, (MemorySize.from_gb n).val = n * (1000 * 1000 * 1000) % U64)
    ∧ (∀ n, (MemorySize.from_kib n).val = n * 1024 % U64)
    ∧ (∀ n, (MemorySize.from_mib n).val = n * (1024 * 1024) % U64)
    ∧ (∀ n, (MemorySize.from_gib n).val = n * (1024 * 1024 * 1024) % U64)
    ∧ (∀ n, n * 1 < U64 → (MemorySize.from_bytes n).bytes = n * 1)
    ∧ (∀ n, n * 1000 < U64 → (MemorySize.from_kb n).bytes = n * 1000)
    ∧ (∀ n, n * (1000 * 1000) < U64 → (MemorySize.from_mb n).bytes = n * (1000 * 1000))
    ∧ (∀ n, n * (1000 * 1000 * 1000) < U64 →
        (MemorySize.from_gb n).bytes = n * (1000 * 1000 * 1000))
    ∧ (∀ n, n * 1024 < U64 → (MemorySize.from_kib n).bytes = n * 1024)
    ∧ (∀ n, n * (1024 * 1024) < U64 → (MemorySize.from_mib n).bytes = n * (1024 * 1024))
    ∧ (∀ n, n * (1024 * 1024 * 1024) < U64 →
        (MemorySize.from_gib n).bytes = n * (1024 * 1024 * 1024))
    ∧ (∃ n, 2 ^ 34 ≤ n ∧ (MemorySize.from_gib n).bytes < n * (1024 * 1024 * 1024)) := by
  refine ⟨fun n => rfl, fun n => rfl, fun n => rfl, fun n => rfl, fun n => rfl,
    fun n => rfl, fun n => rfl,
    fun n h => by
      have h' : n < U64 := by simpa using h
      simp [MemorySize.from_bytes, MemorySize.bytes, Nat.mod_eq_of_lt h'],
    fun n h => by simp [MemorySize.from_kb, MemorySize.bytes, Nat.mod_eq_of_lt h],
    fun n h => by simp [MemorySize.from_mb, MemorySize.bytes, Nat.mod_eq_of_lt h],
    fun n h => by simp [MemorySize.from_gb, MemorySize.bytes, Nat.mod_eq_of_lt h],
    fun n h => by simp [MemorySize.from_kib, MemorySize.bytes, Nat.mod_eq_of_lt h],
    fun n h => by simp [MemorySize.from_mib, MemorySize.bytes, Nat.mod_eq_of_lt h],
    fun n h => by simp [MemorySize.from_gib, MemorySize.bytes, Nat.mod_eq_of_lt h],
    ⟨2 ^ 34, le_refl _, ?_⟩⟩
  norm_num [MemorySize.from_gib, MemorySize.bytes, U64]

/-- Witness for C10 at a concrete input: `from_kb 3` stores exactly
`3000` bytes, the hypothesis `3 * 1000 < 2^64` discharged concretely. -/
theorem memorySize_constructors_wrap_witness :
    (MemorySize.from_kb 3).bytes = 3 * 1000 :=
  memorySize_constructors_wrap.2.2.2.2.2.2.2.2.1 3 (by norm_num [U64])

/-- Claim C9: `Limit::limit` invokes `prlimit` on the current process
(pid `0`) with soft and hard bound both equal to the requested size, and
on a non-zero return code the returned error is exactly the
errno-derived OS error, unmodified; a zero return code yields `Ok`. -/
theorem limit_soft_hard_equal (os : OS) (l : Limit) (n : Nat) :
    (Limit.limit os l n).1.new_limit.rlim_cur = n
    ∧ (Limit.limit os l n).1.new_limit.rlim_max = n
    ∧ (Limit.limit os l n).1.pid = 0
    ∧ (Limit.limit os l n).1.resource = l.resource
    ∧ (os.prlimitRet l.resource (into_rlimit n) = 0 →
        (Limit.limit os l n).2 = Except.ok ())
    ∧ (os.prlimitRet l.resource (into_rlimit n) ≠ 0 →
        (Limit.limit os l n).2 = Except.error (IoError.osError os.lastOsError)) := by
  refine ⟨?_, ?_, ?_, ?_, ?_, ?_⟩ <;>
    simp only [Limit.limit, into_rlimit] <;>
    first
      | (split <;> rfl)
      | (intro h; simp [h])

/-- Witness for C9 at a concrete input: an OS on which `prlimit` fails
with errno 13 makes `Limit::Data.limit 5` return exactly that error. -/
theorem limit_soft_hard_equal_witness :
    (Limit.limit { prlimitRet := fun _ _ => -1, lastOsError := 13 } Limit.Data 5).2
      = Except.error (IoError.osError 13) :=
  (limit_soft_hard_equal { prlimitRet := fun _ _ => -1, lastOsError := 13 }
    Limit.Data 5).2.2.2.2.2 (by norm_num)

/-- Claim C1: on a kernel where every landlock call up to and including
`restrict_self` succeeds and the reported status is `st`,
`Rules::restrict` returns `Err(LandlockNotSupported)` precisely when
`st` is `NotEnforced` (so a spawn attempt fails rather than continuing
unsandboxed), and returns `Ok(())` for every other reported status. -/
theorem restrict_fail_closed (k : Kernel) (r : Rules) (st : RulesetStatus)
    (hFs : k.handleFsOk = true) (hNet : k.handleNetOk = true) (hCr : k.createOk = true)
    (hNR : ∀ p a, k.netRuleOk p a = true) (hPR : ∀ p a, k.pathRuleOk p a = true)
    (hSelf : k.restrictSelfResult = some st) :
    ((r.restrict k).1 = Except.error Error.LandlockNotSupported
        ↔ st = RulesetStatus.NotEnforced)
    ∧ (st ≠ RulesetStatus.NotEnforced → (r.restrict k).1 = Except.ok ()) := by
  rw [restrict_allOk k r st hFs hNet hCr hNR hPR hSelf]
  constructor
  · constructor
    · intro h
      by_contra hne
      simp [hne] at h
    · intro h
      simp [h]
  · intro h
    simp [h]

/-- Witness for C1 at a concrete input: an all-successful kernel that
reports `NotEnforced` makes `restrict` on the empty policy return
`Err(LandlockNotSupported)`. -/
theorem restrict_fail_closed_witness :
    (Rules.new.restrict
        { handleFsOk := true, handleNetOk := true, createOk := true,
          netRuleOk := fun _ _ => true, pathRuleOk := fun _ _ => true,
          restrictSelfResult := some RulesetStatus.NotEnforced }).1
      = Except.error Error.LandlockNotSupported :=
  (restrict_fail_closed
    { handleFsOk := true, handleNetOk := true, createOk := true,
      netRuleOk := fun _ _ => true, pathRuleOk := fun _ _ => true,
      restrictSelfResult := some RulesetStatus.NotEnforced }
    Rules.new RulesetStatus.NotEnforced rfl rfl rfl (fun _ _ => rfl) (fun _ _ => rfl)
    rfl).1.mpr rfl

/-- Claim C6 counterexample: on a kernel whose enforcement outcome is
"partially enforced", `restrict` on the empty policy returns plain
`Ok(())` — the very same value an identical kernel reporting full
enforcement produces — so the partial outcome is not observable by the
caller through the returned value. -/
theorem restrict_partial_unobservable :
    (Rules.new.restrict
        { handleFsOk := true, handleNetOk := true, createOk := true,
          netRuleOk := fun _ _ => true, pathRuleOk := fun _ _ => true,
          restrictSelfResult := some RulesetStatus.PartlyEnforced }).1
      = Except.ok ()
    ∧ (Rules.new.restrict
        { handleFsOk := true, handleNetOk := true, createOk := true,
          netRuleOk := fun _ _ => true, pathRuleOk := fun _ _ => true,
          restrictSelfResult := some RulesetStatus.PartlyEnforced }).1
      = (Rules.new.restrict okKernel).1 := by
  constructor <;> rfl

/-- Claim C6 (amended): a partially enforced outcome is silently treated
as success — whenever every landlock call succeeds and `restrict_self`
reports `PartiallyEnforced`, `Rules::restrict` returns plain `Ok(())`,
indistinguishable from the fully enforced case; only a `NotEnforced`
outcome is surfaced (as `LandlockNotSupported`). -/
theorem restrict_partial_is_success (k : Kernel) (r : Rules)
    (hFs : k.handleFsOk = true) (hNet : k.handleNetOk = true) (hCr : k.createOk = true)
    (hNR : ∀ p a, k.netRuleOk p a = true) (hPR : ∀ p a, k.pathRuleOk p a = true)
    (hSelf : k.restrictSelfResult = some RulesetStatus.PartlyEnforced) :
    (r.restrict k).1 = Except.ok ()
    ∧ (r.restrict k).1 = (r.restrict okKernel).1 := by
  rw [restrict_allOk k r RulesetStatus.PartlyEnforced hFs hNet hCr hNR hPR hSelf,
    restrict_okKernel]
  constructor <;> rfl

/-- Witness for the amended C6 at a concrete input: a one-path policy on
an all-successful, partially-enforcing kernel yields `Ok(())`. -/
theorem restrict_partial_is_success_witness :
    ((Rules.new.add_read_only "/usr").restrict
        { handleFsOk := true, handleNetOk := true, createOk := true,
          netRuleOk := fun _ _ => true, pathRuleOk := fun _ _ => true,
          restrictSelfResult := some RulesetStatus.PartlyEnforced }).1
      = Except.ok () :=
  (restrict_partial_is_success
    { handleFsOk := true, handleNetOk := true, createOk := true,
      netRuleOk := fun _ _ => true, pathRuleOk := fun _ _ => true,
      restrictSelfResult := some RulesetStatus.PartlyEnforced }
    (Rules.new.add_read_only "/usr") rfl rfl rfl (fun _ _ => rfl) (fun _ _ => rfl)
    rfl).1

/-- Claim C3: with an empty bind-port list, `Rules::restrict` emits
exactly one bind-class port rule with sentinel port `0`, and the same
sentinel-zero rule for the connect class when the connect-port list is
empty; with a non-empty list, one rule per listed port in list order
and no sentinel rule for that class. -/
theorem netRules_sentinel_zero (r : Rules) :
    (r.bind_ports = [] → netRulesEmitted r AccessNet.BindTcp = [0])
    ∧ (r.bind_ports ≠ [] → netRulesEmitted r AccessNet.BindTcp = r.bind_ports)
    ∧ (r.connect_ports = [] → netRulesEmitted r AccessNet.ConnectTcp = [0])
    ∧ (r.connect_ports ≠ [] → netRulesEmitted r AccessNet.ConnectTcp = r.connect_ports) := by
  rw [netRulesEmitted_bind, netRulesEmitted_connect]
  refine ⟨fun h => ?_, fun h => ?_, fun h => ?_, fun h => ?_⟩ <;>
    simp [List.isEmpty_iff, h]

/-- Witness for C3 at a concrete input: a policy with no bind ports and
connect port `80` gets the sentinel bind rule and exactly the listed
connect rule. -/
theorem netRules_sentinel_zero_witness :
    netRulesEmitted (Rules.new.add_connect_port 80) AccessNet.BindTcp = [0]
    ∧ netRulesEmitted (Rules.new.add_connect_port 80) AccessNet.ConnectTcp = [80] :=
  ⟨(netRules_sentinel_zero (Rules.new.add_connect_port 80)).1 rfl,
    (netRules_sentinel_zero (Rules.new.add_connect_port 80)).2.2.2 (by decide)⟩

/-- A policy listing the same path twice in `read_only`; the compiler
emits one rule per occurrence, not one per (path, access-set) pair. -/
def rulesDup : Rules :=
  { read_only := ["a", "a"], read_write := [], write_only := [],
    bind_ports := [], connect_ports := [] }

/-- Claim C2 counterexample: for the concrete policy whose `read_only`
list contains path `"a"` twice, `Rules::restrict` emits two identical
path-scoped rules for the single pair (`"a"`, read set), so the emitted
rule list is not one-rule-per-(path, access-class-set) pair (it is not
even duplicate-free). -/
theorem pathRules_not_one_per_pair :
    pathRulesEmitted rulesDup = [("a", FsAccessSet.fromRead), ("a", FsAccessSet.fromRead)]
    ∧ ¬ (pathRulesEmitted rulesDup).Nodup := by
  constructor
  · rw [pathRulesEmitted_eq]
    rfl
  · rw [pathRulesEmitted_eq]
    decide

/-- Claim C2 (amended): `Rules::restrict` emits one path-scoped rule per
occurrence of a path in each policy list — `read_only` with the read
set, `write_only` with the write set, `read_write` with the full set, in
that order — and under the kernel's union semantics (a path's granted
access is the union over all rules naming it) a path is granted the read
class iff it is in `read_only` or `read_write` and the write class iff
it is in `write_only` or `read_write`; consequently a path in both
`read_only` and `read_write` is granted write, and one in both
`write_only` and `read_write` is granted read. -/
theorem pathRules_union_semantics (r : Rules) (p : String) :
    (readGranted r p = true ↔ p ∈ r.read_only ∨ p ∈ r.read_write)
    ∧ (writeGranted r p = true ↔ p ∈ r.write_only ∨ p ∈ r.read_write)
    ∧ pathRulesEmitted r =
        (r.read_only.map fun q => (q, FsAccessSet.fromRead))
          ++ (r.write_only.map fun q => (q, FsAccessSet.fromWrite))
          ++ (r.read_write.map fun q => (q, FsAccessSet.fromAll))
    ∧ (p ∈ r.read_only → p ∈ r.read_write → writeGranted r p = true)
    ∧ (p ∈ r.write_only → p ∈ r.read_write → readGranted r p = true) := by
  have hemit := pathRulesEmitted_eq r
  have hR : readGranted r p = true ↔ p ∈ r.read_only ∨ p ∈ r.read_write := by
    simp [readGranted, hemit, List.any_append, List.any_map, Function.comp_def,
      FsAccessSet.grantsRead, List.any_eq_true, beq_iff_eq]
  have hW : writeGranted r p = true ↔ p ∈ r.write_only ∨ p ∈ r.read_write := by
    simp [writeGranted, hemit, List.any_append, List.any_map, Function.comp_def,
      FsAccessSet.grantsWrite, List.any_eq_true, beq_iff_eq]
  exact ⟨hR, hW, hemit,
    fun _ h2 => hW.mpr (Or.inr h2),
    fun _ h2 => hR.mpr (Or.inr h2)⟩

/-- Witness for the amended C2 at a concrete input: a policy declaring
`"b"` both read-only and read-write grants it the write class. -/
theorem pathRules_union_semantics_witness :
    writeGranted ((Rules.new.add_read_only "b").add_read_write "b") "b" = true :=
  (pathRules_union_semantics ((Rules.new.add_read_only "b").add_read_write "b")
    "b").2.2.2.1 (by decide) (by decide)

theorem addRulesLoop_cons_false {α : Type} (ok : α → Bool) (mk : α → Op) (x : α)
    (l : List α) (h : ok x = false) : addRulesLoop ok mk (x :: l) = (false, [mk x]) := by
  simp [addRulesLoop, h]

/-- Claim C5: `Rules::restrict` performs, in order: choose the protocol
revision (`ABI::V4`), declare the filesystem then the network access
classes (failure of either is fatal), create the ruleset (failure
fatal), add bind-port rules, add connect-port rules, add path-scoped
rules for the read-only, write-only and read-write sets in that order
(any failure fatal), then enforce the ruleset on the calling process;
on an all-successful kernel the full call trace is exactly this
sequence, with success for any reported status other than
`NotEnforced`. -/
theorem restrict_sequence :
    (∀ (k : Kernel) (r : Rules), k.handleFsOk = false →
        (r.restrict k).1 = Except.error Error.AccessFs)
    ∧ (∀ (k : Kernel) (r : Rules), k.handleFsOk = true → k.handleNetOk = false →
        (r.restrict k).1 = Except.error Error.AcessNet)
    ∧ (∀ (k : Kernel) (r : Rules), k.handleFsOk = true → k.handleNetOk = true →
        k.createOk = false → (r.restrict k).1 = Except.error Error.CreateRuleset)
    ∧ (∀ (k : Kernel) (r : Rules), k.handleFsOk = true → k.handleNetOk = true →
        k.createOk = true → (∀ p a, k.netRuleOk p a = false) →
        (r.restrict k).1 = Except.error Error.SetBindPorts)
    ∧ (∀ (k : Kernel) (r : Rules), k.handleFsOk = true → k.handleNetOk = true →
        k.createOk = true → (∀ p, k.netRuleOk p AccessNet.BindTcp = true) →
        (∀ p, k.netRuleOk p AccessNet.ConnectTcp = false) →
        (r.restrict k).1 = Except.error Error.SetConnectPorts)
    ∧ (∀ (k : Kernel) (r : Rules), k.handleFsOk = true → k.handleNetOk = true →
        k.createOk = true → (∀ p a, k.netRuleOk p a = true) →
        (∀ p a, k.pathRuleOk p a = false) →
        (r.read_only ≠ [] ∨ r.write_only ≠ [] ∨ r.read_write ≠ []) →
        (r.restrict k).1 = Except.error Error.AccessFs)
    ∧ (∀ (k : Kernel) (r : Rules) (st : RulesetStatus), k.handleFsOk = true →
        k.handleNetOk = true → k.createOk = true → (∀ p a, k.netRuleOk p a = true) →
        (∀ p a, k.pathRuleOk p a = true) → k.restrictSelfResult = some st →
        r.restrict k =
          ((if st = RulesetStatus.NotEnforced then Except.error Error.LandlockNotSupported
            else Except.ok ()), fullTrace r)) := by
  refine ⟨?_, ?_, ?_, ?_, ?_, ?_, ?_⟩
  · intro k r h1
    simp [Rules.restrict, h1]
  · intro k r h1 h2
    simp [Rules.restrict, h1, h2]
  · intro k r h1 h2 h3
    simp [Rules.restrict, h1, h2, h3]
  · intro k r h1 h2 h3 h4
    cases hb : r.bind_ports <;>
      simp [Rules.restrict, h1, h2, h3, hb, addRulesLoop, h4]
  · intro k r h1 h2 h3 h4 h5
    have hB : ∀ (mk : Nat × AccessNet → Op) (l : List Nat),
        addRulesLoop (fun pa => k.netRuleOk pa.1 pa.2) mk
          (l.map fun p => (p, AccessNet.BindTcp)) =
          (true, (l.map fun p => (p, AccessNet.BindTcp)).map mk) := by
      intro mk l
      refine addRulesLoop_all_true _ _ _ ?_
      intro x hx
      obtain ⟨q, _, rfl⟩ := List.mem_map.mp hx
      exact h4 q
    cases hb : r.bind_ports <;> cases hc : r.connect_ports <;>
      simp [Rules.restrict, h1, h2, h3, hb, hc, addRulesLoop, h4, h5, hB]
  · intro k r h1 h2 h3 hNR hPF hne
    have hN : ∀ (mk : Nat × AccessNet → Op) (l : List (Nat × AccessNet)),
        addRulesLoop (fun pa => k.netRuleOk pa.1 pa.2) mk l = (true, l.map mk) :=
      fun mk l => addRulesLoop_all_true _ _ _ (fun x _ => hNR x.1 x.2)
    rcases hro : r.read_only with _ | ⟨p, ps⟩
    · rcases hwo : r.write_only with _ | ⟨q, qs⟩
      · rcases hrw : r.read_write with _ | ⟨w, ws⟩
        · exact absurd hne (by simp [hro, hwo, hrw])
        · simp [Rules.restrict, h1, h2, h3, hN, hro, hwo, hrw, addRulesLoop, hPF]
      · simp [Rules.restrict, h1, h2, h3, hN, hro, hwo, addRulesLoop, hPF]
    · simp [Rules.restrict, h1, h2, h3, hN, hro, addRulesLoop, hPF]
  · intro k r st h1 h2 h3 hNR hPR hSelf
    exact restrict_allOk k r st h1 h2 h3 hNR hPR hSelf

/-- Witness for C5 at a concrete input: a kernel refusing the filesystem
access-class declaration makes `restrict` fail with `Error::AccessFs`. -/
theorem restrict_sequence_witness :
    (Rules.new.restrict
        { handleFsOk := false, handleNetOk := true, createOk := true,
          netRuleOk := fun _ _ => true, pathRuleOk := fun _ _ => true,
          restrictSelfResult := some RulesetStatus.FullyEnforced }).1
      = Except.error Error.AccessFs :=
  restrict_sequence.1
    { handleFsOk := false, handleNetOk := true, createOk := true,
      netRuleOk := fun _ _ => true, pathRuleOk := fun _ _ => true,
      restrictSelfResult := some RulesetStatus.FullyEnforced }
    Rules.new rfl

/-- The policy of the crate's own doc example: read-write on
`/tmp/foo`. -/
def rulesTmp : Rules := Rules.new.add_read_write "/tmp/foo"

/-- A spawn request built the way the crate's doc example builds it:
`.restrict(rules).max_memory(MemorySize::from_mb(100))` — the restrict
hook is registered first. -/
def cmdEnforceFirst : Command :=
  (Command.mk [] |>.restrict rulesTmp).max_memory (MemorySize.from_mb 100)

/-- Claim C4 counterexample: for the concrete spawn request that
installs the access policy first and the memory limit second (exactly
the crate's doc example order), the child executes the access-policy
enforcement *before* the resource-limit application — pre-exec hooks
run in registration order, so the resource limit is not applied before
enforcement on this request. -/
theorem enforce_can_precede_limit :
    cmdEnforceFirst.hooks
      = [Hook.restrictHook rulesTmp, Hook.limitHook Limit.Data (MemorySize.from_mb 100)]
    ∧ childEvents okKernel okOS cmdEnforceFirst.hooks
      = [Event.enforce rulesTmp, Event.applyLimit Limit.Data 100000000, Event.exec]
    ∧ limitsPrecedeEnforce (childEvents okKernel okOS cmdEnforceFirst.hooks) = false := by
  refine ⟨rfl, ?_, ?_⟩ <;> rfl

/-- Claim C4 (amended): each `CommandExt` method appends one pre-exec
hook, and the child executes the installed hooks in registration order,
all of them before exec (when every hook succeeds) — so resource limits
are applied before policy enforcement exactly when they are installed
first, and both always happen before exec. -/
theorem hooks_run_in_registration_order :
    (∀ (c : Command) (rules : Rules),
        (c.restrict rules).hooks = c.hooks ++ [Hook.restrictHook rules])
    ∧ (∀ (c : Command) (m : MemorySize),
        (c.max_memory m).hooks = c.hooks ++ [Hook.limitHook Limit.Data m])
    ∧ (∀ (c : Command) (m : MemorySize),
        (c.max_file_size m).hooks = c.hooks ++ [Hook.limitHook Limit.FileSize m])
    ∧ (∀ (k : Kernel) (os : OS) (hooks : List Hook),
        (∀ h ∈ hooks, runHook k os h = Except.ok ()) →
        childEvents k os hooks = hooks.map Hook.event ++ [Event.exec]) := by
  refine ⟨fun c rules => rfl, fun c m => rfl, fun c m => rfl, ?_⟩
  intro k os hooks hok
  induction hooks with
  | nil => rfl
  | cons h rest ih =>
    have hh := hok h (List.mem_cons_self h rest)
    have hrest : ∀ x ∈ rest, runHook k os x = Except.ok () :=
      fun x hx => hok x (List.mem_cons_of_mem h hx)
    simp [childEvents, hh, ih hrest]

/-- Witness for the amended C4 at a concrete input: a single successful
limit hook runs, then the child execs. -/
theorem hooks_run_in_registration_order_witness :
    childEvents okKernel okOS [Hook.limitHook Limit.Data (MemorySize.from_bytes 5)]
      = [Hook.limitHook Limit.Data (MemorySize.from_bytes 5)].map Hook.event
          ++ [Event.exec] :=
  hooks_run_in_registration_order.2.2.2 okKernel okOS
    [Hook.limitHook Limit.Data (MemorySize.from_bytes 5)]
    (by intro h hh; rw [List.mem_singleton] at hh; subst hh; rfl)

theorem applyCalls_hooks_eq (calls : List CmdCall) (c : Command) (t : TokioCommand)
    (h : c.hooks = t.hooks) :
    (applyCallsStd c calls).hooks = (applyCallsTokio t calls).hooks := by
  induction calls generalizing c t with
  | nil => exact h
  | cons call rest ih =>
    refine ih _ _ ?_
    cases call with
    | restrict rules =>
      simp [applyCallStd, applyCallTokio, Command.restrict, TokioCommand.restrict, h]
    | restrict_if rules =>
      cases rules <;>
        simp [applyCallStd, applyCallTokio, Command.restrict_if, TokioCommand.restrict_if,
          Command.restrict, TokioCommand.restrict, h]
    | max_memory m =>
      simp [applyCallStd, applyCallTokio, Command.max_memory, TokioCommand.max_memory, h]
    | max_memory_if m =>
      cases m <;>
        simp [applyCallStd, applyCallTokio, Command.max_memory_if,
          TokioCommand.max_memory_if, Command.max_memory, TokioCommand.max_memory, h]
    | max_file_size m =>
      simp [applyCallStd, applyCallTokio, Command.max_file_size,
        TokioCommand.max_file_size, h]
    | max_file_size_if m =>
      cases m <;>
        simp [applyCallStd, applyCallTokio, Command.max_file_size_if,
          TokioCommand.max_file_size_if, Command.max_file_size,
          TokioCommand.max_file_size, h]

/-- Claim C7: any sequence of restriction/limit calls issued against the
blocking (`std`) command type and against the asynchronous (`tokio`)
command type installs the identical hook list, and the child executes
identical events with identical results (same hook bodies, same error
taxonomy, same rule-application order) on any kernel and OS. -/
theorem std_tokio_identical (calls : List CmdCall) (k : Kernel) (os : OS) :
    (applyCallsStd (Command.mk []) calls).hooks
        = (applyCallsTokio (TokioCommand.mk []) calls).hooks
    ∧ childEvents k os (applyCallsStd (Command.mk []) calls).hooks
        = childEvents k os (applyCallsTokio (TokioCommand.mk []) calls).hooks
    ∧ childResult k os (applyCallsStd (Command.mk []) calls).hooks
        = childResult k os (applyCallsTokio (TokioCommand.mk []) calls).hooks := by
  have h := applyCalls_hooks_eq calls (Command.mk []) (TokioCommand.mk []) rfl
  exact ⟨h, by rw [h], by rw [h]⟩

end Leucite
